import Mathlib

/-!
Verification development for the ShowMe repository.

The HTTP layer is embedded from src/server/index.ts.  JSON values produced by
JSON.parse are modelled by the inductive JValue; a missing object property is
modelled by Option.none (JS undefined), and JSON.parse can never produce the
JS value undefined itself, so JValue has no undefined constructor.  JS numbers
that arise from JSON.parse are modelled as rationals.
-/

inductive JValue where
  | str : String → JValue
  | num : Rat → JValue
  | bool : Bool → JValue
  | null : JValue
  | arr : List JValue → JValue
  | obj : List (String × JValue) → JValue

/-- Property lookup on a parsed JSON value: obj fields by key, everything else
(including arrays, for the keys used by the server) yields undefined (none). -/
def getProp : JValue → String → Option JValue
  | JValue.obj fields, k => (fields.find? (fun f => f.1 == k)).map (fun f => f.2)
  | _, _ => none

/-- Model of the JS typeof operator on parsed JSON values. -/
def jTypeof : JValue → String
  | JValue.str _ => "string"
  | JValue.num _ => "number"
  | JValue.bool _ => "boolean"
  | JValue.null => "object"
  | JValue.arr _ => "object"
  | JValue.obj _ => "object"

def isJNull : JValue → Bool
  | JValue.null => true
  | _ => false

def MAX_PAGES : Nat := 50

/-- Source constant MAX_ANNOTATIONS_PER_PAGE from src/server/index.ts. -/
def MAX_ANNOTS_PER_PAGE : Nat := 100

def MAX_FEEDBACK_LENGTH : Nat := 10000

def MAX_GLOBAL_NOTES_LENGTH : Nat := 50000

def MAX_PAGE_NAME_LENGTH : Nat := 200

/-- Source constant VALID_ANNOTATION_TYPES from src/server/index.ts. -/
def VALID_ANNOT_TYPES : List String := ["pin", "area", "arrow", "highlight"]

/-- Embedding of the per-element body of the annotation loop in
validateSubmitPayload (src/server/index.ts lines 118 to 128): the element must
be a non-null object, its type must be a string among VALID_ANNOTATION_TYPES,
and its feedback, when it is a string, must not exceed MAX_FEEDBACK_LENGTH. -/
def validAnnot (ann : JValue) : Bool :=
  jTypeof ann == "object" && !isJNull ann &&
    (match getProp ann "type" with
      | some (JValue.str t) =>
          VALID_ANNOT_TYPES.contains t &&
            (match getProp ann "feedback" with
              | some (JValue.str f) => decide (f.length ≤ MAX_FEEDBACK_LENGTH)
              | _ => true)
      | _ => false)

/-- Truth of the JS test typeof v.k === "string". -/
def isStrProp (v : JValue) (k : String) : Bool :=
  match getProp v k with
  | some (JValue.str _) => true
  | _ => false

/-- Truth of the JS test typeof v.k === "number". -/
def isNumProp (v : JValue) (k : String) : Bool :=
  match getProp v k with
  | some (JValue.num _) => true
  | _ => false

/-- Truth of typeof v.k === "string" combined with a length bound on it. -/
def strPropLenLe (v : JValue) (k : String) (n : Nat) : Bool :=
  match getProp v k with
  | some (JValue.str s) => decide (s.length ≤ n)
  | _ => false

/-- Embedding of the per-page body of the page loop in validateSubmitPayload
(src/server/index.ts lines 104 to 129): the string test on the name and the
bound on its length are folded into one predicate. -/
def validPage (page : JValue) : Bool :=
  jTypeof page == "object" && !isJNull page &&
    isStrProp page "id" &&
    strPropLenLe page "name" MAX_PAGE_NAME_LENGTH &&
    isStrProp page "image" &&
    isNumProp page "width" && isNumProp page "height" &&
    (match getProp page "annotations" with
      | some (JValue.arr anns) =>
          decide (anns.length ≤ MAX_ANNOTS_PER_PAGE) && anns.all validAnnot
      | _ => false)

/-- Embedding of validateSubmitPayload (src/server/index.ts lines 89 to 131).
Early returns of the source are composed with Bool conjunction, which yields
the same Bool result. -/
def validateSubmitPayload (data : JValue) : Bool :=
  jTypeof data == "object" && !isJNull data &&
    (match getProp data "action" with
      | some (JValue.str a) => a == "submit"
      | _ => false) &&
    (match getProp data "pages" with
      | some (JValue.arr pages) =>
          decide (pages.length ≤ MAX_PAGES) &&
            (match getProp data "globalNotes" with
              | none => true
              | some (JValue.str s) => decide (s.length ≤ MAX_GLOBAL_NOTES_LENGTH)
              | some _ => false) &&
            pages.all validPage
      | _ => false)

/-!
The fetch handler of the Bun server (src/server/index.ts lines 253 to 365) and
the surrounding main function.  A ShowMeOutput value models the object passed
to resolvePromise; the hookSpecificOutput wrapper is implicit.  The JSON bodies
of the handcrafted responses are identified by their error or success text.
-/

inductive DecisionBehavior where
  | allow
  | deny
deriving DecidableEq

structure Decision where
  behavior : DecisionBehavior
  message : Option String

structure ShowMeData where
  pages : List JValue
  globalNotes : Option JValue

structure ShowMeOutput where
  decision : Decision
  showme : Option ShowMeData

structure HttpRequest where
  method : String
  path : String
  origin : Option String
  body : Option JValue

inductive FetchResult where
  | response (status : Nat) (body : String)
  | staticFile (pathname : String)
deriving DecidableEq

def expectedOrigin (port : Nat) : String := "http://localhost:" ++ toString port

/-- Value of payload.pages once validateSubmitPayload has succeeded. -/
def submitPages (raw : JValue) : List JValue :=
  match getProp raw "pages" with
  | some (JValue.arr pages) => pages
  | _ => []

/-- Truth of the JS test origin && origin !== expectedOrigin: a missing header
is null and an empty header value is falsy, so neither rejects. -/
def originRejects (port : Nat) (o : Option String) : Bool :=
  match o with
  | some s => s != "" && s != expectedOrigin port
  | none => false

/-- Embedding of the fetch handler: CSRF origin gate for POST requests, then
the three API endpoints, then fallthrough to static file serving.  The second
component is the value handed to resolvePromise by this request, if any. -/
def handleFetch (port : Nat) (req : HttpRequest) : FetchResult × Option ShowMeOutput :=
  if req.method == "POST" && originRejects port req.origin then
    (FetchResult.response 403 "Invalid origin", none)
  else if req.path == "/api/submit" && req.method == "POST" then
    match req.body with
    | none => (FetchResult.response 400 "Invalid JSON", none)
    | some raw =>
        if validateSubmitPayload raw then
          (FetchResult.response 200 "success",
            some { decision := { behavior := DecisionBehavior.allow, message := none },
                   showme := some { pages := submitPages raw,
                                    globalNotes := getProp raw "globalNotes" } })
        else (FetchResult.response 400 "Invalid payload structure", none)
  else if req.path == "/api/cancel" && req.method == "POST" then
    (FetchResult.response 200 "success",
      some { decision := { behavior := DecisionBehavior.deny,
                           message := some "User cancelled ShowMe" },
             showme := none })
  else if req.path == "/api/context" then
    (FetchResult.response 200 "context", none)
  else
    (FetchResult.staticFile req.path, none)

/-- Model of the main function result: resultPromise resolves with the value
passed to the first resolvePromise call, so the session result is the
resolution of the first request that produces one; later requests cannot
change it (the server is stopped once the promise settles). -/
def runSession (port : Nat) : List HttpRequest → Option ShowMeOutput
  | [] => none
  | req :: rest =>
      match (handleFetch port req).2 with
      | some out => some out
      | none => runSession port rest

/-- Values written to stdout by main: console.log(JSON.stringify(result)) runs
exactly once, after the result promise settles and the server stops. -/
def sessionStdout (port : Nat) (reqs : List HttpRequest) : List ShowMeOutput :=
  match runSession port reqs with
  | some out => [out]
  | none => []

/-!
Static file serving (src/server/index.ts lines 330 to 349).  The decode step
models decodeURIComponent on single-byte escapes: an escape sequence whose
byte is at least 0x80 starts a UTF-8 multi-byte sequence, which no claim
exercises, so the model maps it to the error outcome exactly like a malformed
escape (decodeURIComponent throws URIError there only when the continuation
bytes are invalid; all inputs considered below are pure ASCII).  Paths are
processed as character lists so that every step is structural recursion and
kernel-evaluable.
-/

def hexDigit (c : Char) : Option Nat :=
  let n := c.toNat
  if 48 ≤ n ∧ n ≤ 57 then some (n - 48)
  else if 65 ≤ n ∧ n ≤ 70 then some (n - 55)
  else if 97 ≤ n ∧ n ≤ 102 then some (n - 87)
  else none

def percentDecodeChars : List Char → Option (List Char)
  | [] => some []
  | '%' :: a :: b :: rest =>
      match hexDigit a, hexDigit b with
      | some x, some y =>
          if 16 * x + y < 128 then
            (percentDecodeChars rest).map (fun t => Char.ofNat (16 * x + y) :: t)
          else none
      | _, _ => none
  | '%' :: [] => none
  | '%' :: _ :: [] => none
  | c :: rest => (percentDecodeChars rest).map (fun t => c :: t)

/-- Segments of a slash-separated path. -/
def splitSegs : List Char → List (List Char)
  | [] => [[]]
  | c :: rest =>
      match splitSegs rest with
      | seg :: segs => if c = '/' then [] :: seg :: segs else (c :: seg) :: segs
      | [] => [[c]]

/-- Normalization pass of node path.resolve for an absolute path: empty and
dot segments vanish, a double-dot segment pops the previous segment (or is
dropped at the root). -/
def normSegs : List (List Char) → List (List Char) → List (List Char)
  | stack, [] => stack.reverse
  | stack, [] :: rest => normSegs stack rest
  | stack, ['.'] :: rest => normSegs stack rest
  | stack, ['.', '.'] :: rest => normSegs stack.tail rest
  | stack, seg :: rest => normSegs (seg :: stack) rest

def joinSegs : List (List Char) → List Char
  | [] => []
  | [seg] => seg
  | seg :: rest => seg ++ '/' :: joinSegs rest

/-- Model of node path.resolve on a single absolute path. -/
def resolveAbsChars (p : List Char) : List Char :=
  '/' :: joinSegs (normSegs [] (splitSegs p))

/-- Model of node path.resolve(base, rel) for an absolute base. -/
def pathResolveChars (base rel : List Char) : List Char :=
  resolveAbsChars (base ++ '/' :: rel)

inductive StaticOutcome where
  | forbidden
  | serve (fullPath : String)
  | decodeError
deriving DecidableEq

/-- Embedding of the static file section of the fetch handler: rewrite the
root path to /index.html, percent-decode, resolve against the dist directory,
and forbid the result unless the resolved string starts with the resolved
dist directory; otherwise serving proceeds at the resolved path. -/
def staticBranch (distDir pathname : String) : StaticOutcome :=
  let filePath := if pathname == "/" then "/index.html" else pathname
  match percentDecodeChars filePath.toList with
  | none => StaticOutcome.decodeError
  | some decodedPath =>
      let normalizedPath := pathResolveChars distDir.toList ('.' :: decodedPath)
      if List.isPrefixOf (resolveAbsChars distDir.toList) normalizedPath then
        StaticOutcome.serve (String.mk normalizedPath)
      else StaticOutcome.forbidden

/-- Containment of a resolved path in the dist directory: it is the directory
itself or lies strictly below it. -/
def withinDir (distDir fullPath : String) : Prop :=
  fullPath.toList = resolveAbsChars distDir.toList ∨
    List.isPrefixOf (resolveAbsChars distDir.toList ++ ['/']) fullPath.toList = true

/-!
Canvas core.  The browser-side engine (ui/main.ts) is not under src/, so the
definitions below are modelled from the spec, sections 3, 4.1, 4.3 and 8:
annotation data model, hit tester, per-page numbering, and the snapshot-based
undo and redo history with its fixed cap.  Canvas coordinates are modelled as
rationals.
-/

structure Point where
  x : Rat
  y : Rat
deriving DecidableEq

structure BoundingBox where
  x : Rat
  y : Rat
  width : Rat
  height : Rat
deriving DecidableEq

/-- Modelled from the spec: closed tagged-variant geometry per annotation type
(spec section 3 and section 9). -/
inductive AnnotGeom where
  | pin (position : Point)
  | area (bounds : BoundingBox)
  | arrow (startPoint endPoint : Point)
  | highlight (points : List Point)
deriving DecidableEq

/-- Modelled from the spec: an annotation record (spec section 3); the bounds
field is the derived enclosing rectangle kept consistent with the geometry. -/
structure Annot where
  id : String
  number : Nat
  geom : AnnotGeom
  bounds : BoundingBox
  feedback : String
deriving DecidableEq

/-- Modelled from the spec: rendered pin radius 14, from the section 8 example
where a pin at (452,128) has bounds x 438, y 114, width 28, height 28. -/
def PIN_VISUAL_RADIUS : Rat := 14

/-- Modelled from the spec: the pin hit radius is deliberately larger than the
rendered visual radius (section 4.3); fixed here at 18. -/
def PIN_HIT_RADIUS : Rat := 18

/-- Modelled from the spec: the small fixed padding of the bounding-box
pre-check, section 4.3 names 5 units. -/
def BB_PADDING : Rat := 5

/-- Modelled from the spec: fixed perpendicular tolerance of the arrow test. -/
def ARROW_TOLERANCE : Rat := 6

/-- Modelled from the spec: segment tolerance of the highlight test, looser
than the arrow tolerance. -/
def HIGHLIGHT_TOLERANCE : Rat := 10

def dist2 (p q : Point) : Rat :=
  (p.x - q.x) * (p.x - q.x) + (p.y - q.y) * (p.y - q.y)

/-- Squared distance from a point to a segment: project onto the line, clamp
the parameter to the unit interval, measure to the clamped point; a
zero-length segment degrades to point distance. -/
def segDist2 (p a b : Point) : Rat :=
  let dx := b.x - a.x
  let dy := b.y - a.y
  let den := dx * dx + dy * dy
  if den = 0 then dist2 p a
  else
    let t := ((p.x - a.x) * dx + (p.y - a.y) * dy) / den
    let tc := min 1 (max 0 t)
    dist2 p ⟨a.x + tc * dx, a.y + tc * dy⟩

def padBox (b : BoundingBox) (m : Rat) : BoundingBox :=
  ⟨b.x - m, b.y - m, b.width + 2 * m, b.height + 2 * m⟩

def boxContains (b : BoundingBox) (p : Point) : Bool :=
  decide (b.x ≤ p.x ∧ p.x ≤ b.x + b.width ∧ b.y ≤ p.y ∧ p.y ≤ b.y + b.height)

def segsHit (p : Point) : List Point → Bool
  | a :: b :: rest =>
      decide (segDist2 p a b ≤ HIGHLIGHT_TOLERANCE * HIGHLIGHT_TOLERANCE) || segsHit p (b :: rest)
  | _ => false

/-- Modelled from the spec: the per-type hit test of section 4.3, gated by the
padded bounding-box pre-check. -/
def hitsAnnot (p : Point) (a : Annot) : Bool :=
  boxContains (padBox a.bounds BB_PADDING) p &&
    (match a.geom with
      | AnnotGeom.pin c => decide (dist2 p c ≤ PIN_HIT_RADIUS * PIN_HIT_RADIUS)
      | AnnotGeom.area _ => true
      | AnnotGeom.arrow s e => decide (segDist2 p s e ≤ ARROW_TOLERANCE * ARROW_TOLERANCE)
      | AnnotGeom.highlight pts => segsHit p pts)

/-- Modelled from the spec: the hit tester of section 4.3, pure function from
a point and the list (insertion order, last is topmost) to the first match
testing most-recently-created first. -/
def hitTest (p : Point) (annots : List Annot) : Option Annot :=
  annots.reverse.find? (hitsAnnot p)

/-- Bounds derived from pin geometry at creation, per sections 3 and 8. -/
def pinBounds (c : Point) : BoundingBox :=
  ⟨c.x - PIN_VISUAL_RADIUS, c.y - PIN_VISUAL_RADIUS,
    2 * PIN_VISUAL_RADIUS, 2 * PIN_VISUAL_RADIUS⟩

/-- A pin annotation as created by a completed pin gesture. -/
def mkPin (id : String) (n : Nat) (c : Point) (fb : String) : Annot :=
  ⟨id, n, AnnotGeom.pin c, pinBounds c, fb⟩

/-- Modelled from the spec: a page as the numbering primitive needs it, with
its own ordered annotation collection (spec sections 3 and 4.1). -/
structure CanvasPage where
  id : String
  name : String
  annots : List Annot

def maxNum : List Nat → Nat
  | [] => 0
  | n :: rest => max n (maxNum rest)

/-- Modelled from the spec: nextAnnotationNumber of section 4.1 returns one
greater than the maximum number currently present among the annotations of
the page, or 1 if none exist. -/
def nextAnnotNumber (p : CanvasPage) : Nat :=
  match p.annots with
  | [] => 1
  | _ => maxNum (p.annots.map Annot.number) + 1

/-- Modelled from the spec: an undo and redo unit, a full raster copy paired
with a deep copy of the annotation collection (spec section 3); the raster is
opaque pixel data. -/
structure Snapshot where
  raster : List Nat
  annots : List Annot
deriving DecidableEq

/-- Modelled from the spec: the fixed undo stack cap, section 8 names 15. -/
def HISTORY_CAP : Nat := 15

/-- Modelled from the spec: per-page history; the head of the undo stack is
the currently visible committed state (spec section 3). -/
structure PageHistory where
  undoStack : List Snapshot
  redoStack : List Snapshot
deriving DecidableEq

/-- Modelled from the spec: commit of section 4.1 pushes the captured state as
a new snapshot, clears the redo stack and drops the oldest entries beyond the
cap. -/
def commitSnap (h : PageHistory) (s : Snapshot) : PageHistory :=
  { undoStack := (s :: h.undoStack).take HISTORY_CAP, redoStack := [] }

/-- Modelled from the spec: undo of section 4.1 is a no-op when only the
earliest state remains; otherwise it pops the current top onto the redo stack
and restores the new top. -/
def undoSnap (h : PageHistory) : PageHistory :=
  match h.undoStack with
  | cur :: prev :: rest => { undoStack := prev :: rest, redoStack := cur :: h.redoStack }
  | _ => h

/-- Modelled from the spec: redo of section 4.1 is a no-op on an empty redo
stack; otherwise it moves one snapshot back onto the undo stack and restores
it. -/
def redoSnap (h : PageHistory) : PageHistory :=
  match h.redoStack with
  | s :: rest => { undoStack := s :: h.undoStack, redoStack := rest }
  | [] => h

/-- The live state restored by the history: the top of the undo stack. -/
def liveSnapshot (h : PageHistory) : Option Snapshot := h.undoStack.head?

def commitAll (h : PageHistory) : List Snapshot → PageHistory
  | [] => h
  | s :: rest => commitAll (commitSnap h s) rest

def undoIter (h : PageHistory) : Nat → PageHistory
  | 0 => h
  | n + 1 => undoIter (undoSnap h) n

/-!
Statement-side schemas.  conformsSubmitSchema transcribes the section 6
submission payload schema of the spec; checkedSubmitSchema records exactly
what validateSubmitPayload establishes.  Both are statement material, not
embeddings of code.
-/

/-- Section 6 schema for the bounds object of an annotation. -/
def boundsShape (b : JValue) : Prop :=
  (∃ x, getProp b "x" = some (JValue.num x)) ∧
    (∃ y, getProp b "y" = some (JValue.num y)) ∧
    (∃ w, getProp b "width" = some (JValue.num w)) ∧
    (∃ h, getProp b "height" = some (JValue.num h))

/-- Section 6 schema for one annotation: id string, type among the four,
integral number, bounds object, feedback string. -/
def conformsAnnotSchema (ann : JValue) : Prop :=
  (∃ s, getProp ann "id" = some (JValue.str s)) ∧
    (∃ t, getProp ann "type" = some (JValue.str t) ∧ t ∈ VALID_ANNOT_TYPES) ∧
    (∃ n : Int, getProp ann "number" = some (JValue.num (n : Rat))) ∧
    (∃ b, getProp ann "bounds" = some b ∧ boundsShape b) ∧
    (∃ f, getProp ann "feedback" = some (JValue.str f))

/-- Section 6 schema for one page. -/
def conformsPageSchema (page : JValue) : Prop :=
  (∃ s, getProp page "id" = some (JValue.str s)) ∧
    (∃ s, getProp page "name" = some (JValue.str s)) ∧
    (∃ s, getProp page "image" = some (JValue.str s)) ∧
    (∃ w, getProp page "width" = some (JValue.num w)) ∧
    (∃ h, getProp page "height" = some (JValue.num h)) ∧
    (∃ anns, getProp page "annotations" = some (JValue.arr anns) ∧
      ∀ a ∈ anns, conformsAnnotSchema a)

/-- Section 6 schema for the whole payload. -/
def conformsSubmitSchema (d : JValue) : Prop :=
  ∃ pages, getProp d "pages" = some (JValue.arr pages) ∧ ∀ p ∈ pages, conformsPageSchema p

/-- What the annotation loop of validateSubmitPayload actually establishes. -/
def checkedAnnotSchema (ann : JValue) : Prop :=
  jTypeof ann = "object" ∧ ann ≠ JValue.null ∧
    (∃ t, getProp ann "type" = some (JValue.str t) ∧ t ∈ VALID_ANNOT_TYPES) ∧
    (∀ f, getProp ann "feedback" = some (JValue.str f) → f.length ≤ MAX_FEEDBACK_LENGTH)

/-- What the page loop of validateSubmitPayload actually establishes. -/
def checkedPageSchema (page : JValue) : Prop :=
  (∃ s, getProp page "id" = some (JValue.str s)) ∧
    (∃ s, getProp page "name" = some (JValue.str s) ∧ s.length ≤ MAX_PAGE_NAME_LENGTH) ∧
    (∃ s, getProp page "image" = some (JValue.str s)) ∧
    (∃ w, getProp page "width" = some (JValue.num w)) ∧
    (∃ h, getProp page "height" = some (JValue.num h)) ∧
    (∃ anns, getProp page "annotations" = some (JValue.arr anns) ∧
      anns.length ≤ MAX_ANNOTS_PER_PAGE ∧ ∀ a ∈ anns, checkedAnnotSchema a)

/-- What validateSubmitPayload actually establishes on acceptance. -/
def checkedSubmitSchema (d : JValue) : Prop :=
  getProp d "action" = some (JValue.str "submit") ∧
    ∃ pages, getProp d "pages" = some (JValue.arr pages) ∧
      pages.length ≤ MAX_PAGES ∧
      (∀ g, getProp d "globalNotes" = some g →
        ∃ s, g = JValue.str s ∧ s.length ≤ MAX_GLOBAL_NOTES_LENGTH) ∧
      ∀ p ∈ pages, checkedPageSchema p

/-- Statement-side transcription of claim C10: some fixed size limit of the
validator is exceeded by the payload. -/
def exceedsLimits (d : JValue) : Bool :=
  (match getProp d "pages" with
    | some (JValue.arr pages) =>
        decide (MAX_PAGES < pages.length) ||
          pages.any (fun page =>
            (match getProp page "name" with
              | some (JValue.str s) => decide (MAX_PAGE_NAME_LENGTH < s.length)
              | _ => false) ||
            (match getProp page "annotations" with
              | some (JValue.arr anns) =>
                  decide (MAX_ANNOTS_PER_PAGE < anns.length) ||
                    anns.any (fun ann =>
                      match getProp ann "feedback" with
                      | some (JValue.str f) => decide (MAX_FEEDBACK_LENGTH < f.length)
                      | _ => false)
              | _ => false))
    | _ => false) ||
  (match getProp d "globalNotes" with
    | some (JValue.str s) => decide (MAX_GLOBAL_NOTES_LENGTH < s.length)
    | _ => false)

/-- Annotation carrying only a type tag; the validator accepts it although it
has no id, number, bounds or feedback. -/
def cexAnn : JValue := JValue.obj [("type", JValue.str "pin")]

def cexPage : JValue :=
  JValue.obj
    [("id", JValue.str "p1"), ("name", JValue.str "Page 1"),
     ("image", JValue.str "data:image/png;base64,AAAA"),
     ("width", JValue.num 800), ("height", JValue.num 600),
     ("annotations", JValue.arr [cexAnn])]

def cexPayload : JValue :=
  JValue.obj [("action", JValue.str "submit"), ("pages", JValue.arr [cexPage])]

/-- Minimal payload the validator accepts. -/
def goodPayload : JValue :=
  JValue.obj [("action", JValue.str "submit"), ("pages", JValue.arr [])]

/-- Payload whose page count exceeds MAX_PAGES. -/
def bigPayload : JValue :=
  JValue.obj [("pages", JValue.arr (List.replicate 51 JValue.null))]

/-- Distinct snapshots for concrete history runs. -/
def demoSnap (i : Nat) : Snapshot := ⟨[i], []⟩

def demoSnaps : List Snapshot := (List.range 16).map demoSnap

/-- Page with no annotations. -/
def demoPageEmpty : CanvasPage := ⟨"pg0", "Empty", []⟩

/-- Page with annotations numbered 2, 5 and 3. -/
def demoPage : CanvasPage :=
  ⟨"pg1", "Demo",
   [mkPin "a1" 2 ⟨0, 0⟩ "", mkPin "a2" 5 ⟨10, 10⟩ "", mkPin "a3" 3 ⟨20, 20⟩ ""]⟩

lemma isJNull_false_ne_null {a : JValue} (h : isJNull a = false) : a ≠ JValue.null := by
  intro heq
  subst heq
  simp [isJNull] at h

lemma validAnnot_sound {a : JValue} (h : validAnnot a = true) : checkedAnnotSchema a := by
  unfold validAnnot at h
  simp only [Bool.and_eq_true, beq_iff_eq, Bool.not_eq_true'] at h
  obtain ⟨⟨hobj, hnull⟩, hrest⟩ := h
  refine ⟨hobj, isJNull_false_ne_null hnull, ?_, ?_⟩
  · cases htype : getProp a "type" with
    | none => rw [htype] at hrest; exact absurd hrest (by simp)
    | some v =>
        rw [htype] at hrest
        cases v with
        | str t =>
            simp only [Bool.and_eq_true] at hrest
            exact ⟨t, rfl, by
              have := hrest.1
              simpa using this⟩
        | num q => exact absurd hrest (by simp)
        | bool b => exact absurd hrest (by simp)
        | null => exact absurd hrest (by simp)
        | arr l => exact absurd hrest (by simp)
        | obj l => exact absurd hrest (by simp)
  · intro f hf
    cases htype : getProp a "type" with
    | none => rw [htype] at hrest; exact absurd hrest (by simp)
    | some v =>
        rw [htype] at hrest
        cases v with
        | str t =>
            simp only [Bool.and_eq_true] at hrest
            have h2 := hrest.2
            rw [hf] at h2
            simpa using h2
        | num q => exact absurd hrest (by simp)
        | bool b => exact absurd hrest (by simp)
        | null => exact absurd hrest (by simp)
        | arr l => exact absurd hrest (by simp)
        | obj l => exact absurd hrest (by simp)

lemma isStrProp_true {v : JValue} {k : String} (h : isStrProp v k = true) :
    ∃ s, getProp v k = some (JValue.str s) := by
  unfold isStrProp at h
  cases hp : getProp v k with
  | none => rw [hp] at h; exact absurd h (by simp)
  | some w =>
      rw [hp] at h
      cases w with
      | str s => exact ⟨s, rfl⟩
      | num q => exact absurd h (by simp)
      | bool b => exact absurd h (by simp)
      | null => exact absurd h (by simp)
      | arr l => exact absurd h (by simp)
      | obj l => exact absurd h (by simp)

lemma isNumProp_true {v : JValue} {k : String} (h : isNumProp v k = true) :
    ∃ q, getProp v k = some (JValue.num q) := by
  unfold isNumProp at h
  cases hp : getProp v k with
  | none => rw [hp] at h; exact absurd h (by simp)
  | some w =>
      rw [hp] at h
      cases w with
      | num q => exact ⟨q, rfl⟩
      | str s => exact absurd h (by simp)
      | bool b => exact absurd h (by simp)
      | null => exact absurd h (by simp)
      | arr l => exact absurd h (by simp)
      | obj l => exact absurd h (by simp)

lemma strPropLenLe_true {v : JValue} {k : String} {n : Nat} (h : strPropLenLe v k n = true) :
    ∃ s, getProp v k = some (JValue.str s) ∧ s.length ≤ n := by
  unfold strPropLenLe at h
  cases hp : getProp v k with
  | none => rw [hp] at h; exact absurd h (by simp)
  | some w =>
      rw [hp] at h
      cases w with
      | str s => exact ⟨s, rfl, by simpa using h⟩
      | num q => exact absurd h (by simp)
      | bool b => exact absurd h (by simp)
      | null => exact absurd h (by simp)
      | arr l => exact absurd h (by simp)
      | obj l => exact absurd h (by simp)

lemma validPage_sound {page : JValue} (h : validPage page = true) : checkedPageSchema page := by
  unfold validPage at h
  simp only [Bool.and_eq_true] at h
  obtain ⟨⟨⟨⟨⟨⟨⟨hobj, hnull⟩, hid⟩, hname⟩, himg⟩, hwid⟩, hhei⟩, hanns⟩ := h
  obtain ⟨sid, hsid⟩ := isStrProp_true hid
  obtain ⟨sname, hsname, hlen⟩ := strPropLenLe_true hname
  obtain ⟨simg, hsimg⟩ := isStrProp_true himg
  obtain ⟨qw, hqw⟩ := isNumProp_true hwid
  obtain ⟨qh, hqh⟩ := isNumProp_true hhei
  refine ⟨⟨sid, hsid⟩, ⟨sname, hsname, hlen⟩, ⟨simg, hsimg⟩, ⟨qw, hqw⟩, ⟨qh, hqh⟩, ?_⟩
  cases hp : getProp page "annotations" with
  | none => rw [hp] at hanns; exact absurd hanns (by simp)
  | some w =>
      rw [hp] at hanns
      cases w with
      | arr anns =>
          simp only [Bool.and_eq_true, decide_eq_true_eq, List.all_eq_true] at hanns
          exact ⟨anns, rfl, hanns.1, fun a ha => validAnnot_sound (hanns.2 a ha)⟩
      | str s => exact absurd hanns (by simp)
      | num q => exact absurd hanns (by simp)
      | bool b => exact absurd hanns (by simp)
      | null => exact absurd hanns (by simp)
      | obj l => exact absurd hanns (by simp)

lemma validateSubmitPayload_sound {d : JValue} (h : validateSubmitPayload d = true) :
    checkedSubmitSchema d := by
  unfold validateSubmitPayload at h
  simp only [Bool.and_eq_true] at h
  obtain ⟨⟨⟨hobj, hnull⟩, hact⟩, hpages⟩ := h
  constructor
  · cases ha : getProp d "action" with
    | none => rw [ha] at hact; exact absurd hact (by simp)
    | some w =>
        rw [ha] at hact
        cases w with
        | str a =>
            have ha2 : a = "submit" := by simpa using hact
            rw [ha2]
        | num q => exact absurd hact (by simp)
        | bool b => exact absurd hact (by simp)
        | null => exact absurd hact (by simp)
        | arr l => exact absurd hact (by simp)
        | obj l => exact absurd hact (by simp)
  · cases hp : getProp d "pages" with
    | none => rw [hp] at hpages; exact absurd hpages (by simp)
    | some w =>
        rw [hp] at hpages
        cases w with
        | arr pages =>
            simp only [Bool.and_eq_true, decide_eq_true_eq, List.all_eq_true] at hpages
            obtain ⟨⟨hcount, hgn⟩, hall⟩ := hpages
            refine ⟨pages, rfl, hcount, ?_, fun p hmem => validPage_sound (hall p hmem)⟩
            intro g hg
            rw [hg] at hgn
            cases g with
            | str s => exact ⟨s, rfl, by simpa using hgn⟩
            | num q => exact absurd hgn (by simp)
            | bool b => exact absurd hgn (by simp)
            | null => exact absurd hgn (by simp)
            | arr l => exact absurd hgn (by simp)
            | obj l => exact absurd hgn (by simp)
        | str s => exact absurd hpages (by simp)
        | num q => exact absurd hpages (by simp)
        | bool b => exact absurd hpages (by simp)
        | null => exact absurd hpages (by simp)
        | obj l => exact absurd hpages (by simp)

/-- Claim C1, counterexample: the validator accepts cexPayload although its
single annotation carries no id, number, bounds or feedback, so acceptance
does not imply conformance to the section 6 submission schema. -/
theorem c1_validator_accepts_nonconforming_payload :
    validateSubmitPayload cexPayload = true ∧ ¬ conformsSubmitSchema cexPayload := by
  constructor
  · rfl
  · rintro ⟨pages, hp, hall⟩
    have hp0 : getProp cexPayload "pages" = some (JValue.arr [cexPage]) := rfl
    rw [hp0] at hp
    injection hp with h1
    injection h1 with h2
    have hps := hall cexPage (by rw [← h2]; simp)
    obtain ⟨-, -, -, -, -, anns, hanns, hallA⟩ := hps
    have hanns0 : getProp cexPage "annotations" = some (JValue.arr [cexAnn]) := rfl
    rw [hanns0] at hanns
    injection hanns with h3
    injection h3 with h4
    have hca := hallA cexAnn (by rw [← h4]; simp)
    obtain ⟨⟨s, hid⟩, -⟩ := hca
    have hid0 : getProp cexAnn "id" = none := rfl
    rw [hid0] at hid
    exact Option.noConfusion hid

/-- Claim C1, amended: acceptance by validateSubmitPayload guarantees the
checked fragment of the section 6 schema: action is submit, pages is an array
of at most MAX_PAGES objects each carrying string id, name (bounded), image,
numeric width and height and an annotation array of at most
MAX_ANNOTS_PER_PAGE non-null objects whose type is one of the four valid
tags and whose feedback, when it is a string, is bounded; presence of an
annotation id, number, bounds or feedback is not guaranteed. -/
theorem c1_amended_validator_guarantees (d : JValue)
    (h : validateSubmitPayload d = true) : checkedSubmitSchema d :=
  validateSubmitPayload_sound h

/-- Witness for the amended claim C1 at the concrete accepted payload. -/
theorem c1_amended_witness :
    validateSubmitPayload cexPayload = true ∧ checkedSubmitSchema cexPayload :=
  ⟨rfl, c1_amended_validator_guarantees cexPayload rfl⟩

/-- Claim C10: every payload that exceeds a fixed size limit of the validator
(too many pages, too many annotations on a page, an overlong page name,
overlong global notes, or an overlong string feedback field) is rejected. -/
theorem c10_size_limits_rejected (d : JValue) (h : exceedsLimits d = true) :
    validateSubmitPayload d = false := by
  cases hv : validateSubmitPayload d with
  | false => rfl
  | true =>
      exfalso
      obtain ⟨hact, pages, hp, hcount, hgn, hpages⟩ := validateSubmitPayload_sound hv
      have hfalse : exceedsLimits d = false := by
        unfold exceedsLimits
        rw [hp]
        simp only [Bool.or_eq_false_iff]
        refine ⟨⟨?_, ?_⟩, ?_⟩
        · simpa using Nat.not_lt.mpr hcount
        · rw [List.any_eq_false]
          intro page hpage
          obtain ⟨-, ⟨sname, hname, hnlen⟩, -, -, -, anns, hanns, hacount, hall⟩ :=
            hpages page hpage
          rw [hname, hanns]
          intro hcontra
          simp only [Bool.or_eq_true, decide_eq_true_eq] at hcontra
          rcases hcontra with hbad | hbad | hbad
          · exact absurd hbad (Nat.not_lt.mpr hnlen)
          · exact absurd hbad (Nat.not_lt.mpr hacount)
          · rw [List.any_eq_true] at hbad
            obtain ⟨ann, hann, hbadf⟩ := hbad
            obtain ⟨-, -, -, hfbr⟩ := hall ann hann
            cases hfb : getProp ann "feedback" with
            | none => rw [hfb] at hbadf; exact absurd hbadf (by simp)
            | some w =>
                rw [hfb] at hbadf
                cases w with
                | str f =>
                    have hflen : MAX_FEEDBACK_LENGTH < f.length := by simpa using hbadf
                    exact absurd hflen (Nat.not_lt.mpr (hfbr f hfb))
                | num q => exact absurd hbadf (by simp)
                | bool b => exact absurd hbadf (by simp)
                | null => exact absurd hbadf (by simp)
                | arr l => exact absurd hbadf (by simp)
                | obj l => exact absurd hbadf (by simp)
        · cases hg : getProp d "globalNotes" with
          | none => simp
          | some g =>
              obtain ⟨s, rfl, hb⟩ := hgn g hg
              simpa using Nat.not_lt.mpr hb
      rw [h] at hfalse
      exact Bool.noConfusion hfalse

/-- Witness for claim C10 at a concrete payload with 51 pages. -/
theorem c10_size_limits_witness :
    exceedsLimits bigPayload = true ∧ validateSubmitPayload bigPayload = false :=
  ⟨rfl, c10_size_limits_rejected bigPayload rfl⟩

lemma fetch_reject (port : Nat) (p : String) (o : Option String) (b : Option JValue)
    (hcond : originRejects port o = true) :
    handleFetch port ⟨"POST", p, o, b⟩ = (FetchResult.response 403 "Invalid origin", none) := by
  unfold handleFetch
  simp [hcond]

lemma fetch_non_reject (port : Nat) (p : String) (o : Option String) (b : Option JValue)
    (hcond : originRejects port o = false) :
    handleFetch port ⟨"POST", p, o, b⟩ ≠ (FetchResult.response 403 "Invalid origin", none) := by
  intro heq
  unfold handleFetch at heq
  rw [hcond] at heq
  simp only [Bool.and_false, Bool.false_eq_true, if_false] at heq
  split at heq
  · cases b with
    | none => simp at heq
    | some raw =>
        simp only at heq
        split at heq <;> simp at heq
  · split at heq
    · simp at heq
    · split at heq <;> simp at heq

/-- Claim C2: a POST to /api/submit with a valid payload responds success and
resolves the session result with behavior allow, the submitted pages and the
global notes passed through; a POST to /api/cancel responds success and
resolves behavior deny with message User cancelled ShowMe; in either case the
session result is settled by that first resolving request, the server stops,
and exactly one JSON result is written to stdout. -/
theorem c2_submit_cancel_terminal (port : Nat) (raw : JValue) (rest : List HttpRequest)
    (hval : validateSubmitPayload raw = true) :
    handleFetch port ⟨"POST", "/api/submit", none, some raw⟩
        = (FetchResult.response 200 "success",
           some ⟨⟨DecisionBehavior.allow, none⟩,
             some ⟨submitPages raw, getProp raw "globalNotes"⟩⟩)
    ∧ handleFetch port ⟨"POST", "/api/cancel", none, none⟩
        = (FetchResult.response 200 "success",
           some ⟨⟨DecisionBehavior.deny, some "User cancelled ShowMe"⟩, none⟩)
    ∧ sessionStdout port (⟨"POST", "/api/submit", none, some raw⟩ :: rest)
        = [⟨⟨DecisionBehavior.allow, none⟩,
            some ⟨submitPages raw, getProp raw "globalNotes"⟩⟩]
    ∧ sessionStdout port (⟨"POST", "/api/cancel", none, none⟩ :: rest)
        = [⟨⟨DecisionBehavior.deny, some "User cancelled ShowMe"⟩, none⟩] := by
  have hsub : handleFetch port ⟨"POST", "/api/submit", none, some raw⟩
      = (FetchResult.response 200 "success",
         some ⟨⟨DecisionBehavior.allow, none⟩,
           some ⟨submitPages raw, getProp raw "globalNotes"⟩⟩) := by
    unfold handleFetch
    simp [originRejects, hval]
  have hcan : handleFetch port ⟨"POST", "/api/cancel", none, none⟩
      = (FetchResult.response 200 "success",
         some ⟨⟨DecisionBehavior.deny, some "User cancelled ShowMe"⟩, none⟩) := by
    unfold handleFetch
    simp [originRejects]
  refine ⟨hsub, hcan, ?_, ?_⟩
  · unfold sessionStdout runSession
    rw [hsub]
  · unfold sessionStdout runSession
    rw [hcan]

/-- Witness for claim C2 at the minimal valid payload and port 40000. -/
theorem c2_submit_cancel_witness :
    validateSubmitPayload goodPayload = true
    ∧ handleFetch 40000 ⟨"POST", "/api/submit", none, some goodPayload⟩
        = (FetchResult.response 200 "success",
           some ⟨⟨DecisionBehavior.allow, none⟩,
             some ⟨submitPages goodPayload, getProp goodPayload "globalNotes"⟩⟩)
    ∧ handleFetch 40000 ⟨"POST", "/api/cancel", none, none⟩
        = (FetchResult.response 200 "success",
           some ⟨⟨DecisionBehavior.deny, some "User cancelled ShowMe"⟩, none⟩)
    ∧ sessionStdout 40000 [⟨"POST", "/api/submit", none, some goodPayload⟩]
        = [⟨⟨DecisionBehavior.allow, none⟩,
            some ⟨submitPages goodPayload, getProp goodPayload "globalNotes"⟩⟩]
    ∧ sessionStdout 40000 [⟨"POST", "/api/cancel", none, none⟩]
        = [⟨⟨DecisionBehavior.deny, some "User cancelled ShowMe"⟩, none⟩] :=
  ⟨rfl, c2_submit_cancel_terminal 40000 goodPayload [] rfl⟩

/-- Claim C3: a POST to /api/submit (with a non-rejecting origin) whose body
is not valid JSON or whose payload fails validation gets a 400 response with
an error message, resolves nothing, and leaves the pending session untouched,
so a later attempt behaves as if the failed one never happened. -/
theorem c3_invalid_submit_safe (port : Nat) (b : Option JValue) (rest : List HttpRequest)
    (hbad : b = none ∨ ∃ raw, b = some raw ∧ validateSubmitPayload raw = false) :
    ((handleFetch port ⟨"POST", "/api/submit", none, b⟩).1
        = FetchResult.response 400 "Invalid JSON"
      ∨ (handleFetch port ⟨"POST", "/api/submit", none, b⟩).1
        = FetchResult.response 400 "Invalid payload structure")
    ∧ (handleFetch port ⟨"POST", "/api/submit", none, b⟩).2 = none
    ∧ runSession port (⟨"POST", "/api/submit", none, b⟩ :: rest) = runSession port rest := by
  rcases hbad with rfl | ⟨raw, rfl, hv⟩
  · have h1 : handleFetch port ⟨"POST", "/api/submit", none, none⟩
        = (FetchResult.response 400 "Invalid JSON", none) := by
      unfold handleFetch
      simp [originRejects]
    refine ⟨Or.inl (by rw [h1]), by rw [h1], ?_⟩
    rw [runSession, h1]
  · have h1 : handleFetch port ⟨"POST", "/api/submit", none, some raw⟩
        = (FetchResult.response 400 "Invalid payload structure", none) := by
      unfold handleFetch
      simp [originRejects, hv]
    refine ⟨Or.inr (by rw [h1]), by rw [h1], ?_⟩
    rw [runSession, h1]

/-- Witness for claim C3: a body that parses but fails validation. -/
theorem c3_invalid_submit_witness :
    ((some JValue.null = (none : Option JValue)
        ∨ ∃ raw, some JValue.null = some raw ∧ validateSubmitPayload raw = false)
      ∧ ((handleFetch 40000 ⟨"POST", "/api/submit", none, some JValue.null⟩).1
            = FetchResult.response 400 "Invalid JSON"
          ∨ (handleFetch 40000 ⟨"POST", "/api/submit", none, some JValue.null⟩).1
            = FetchResult.response 400 "Invalid payload structure")
      ∧ (handleFetch 40000 ⟨"POST", "/api/submit", none, some JValue.null⟩).2 = none
      ∧ runSession 40000 [⟨"POST", "/api/submit", none, some JValue.null⟩] = runSession 40000 []) :=
  ⟨Or.inr ⟨JValue.null, rfl, rfl⟩,
    c3_invalid_submit_safe 40000 (some JValue.null) [] (Or.inr ⟨JValue.null, rfl, rfl⟩)⟩

/-- Claim C9, amended: an HTTP POST to any path is rejected with 403 and the
Invalid origin error if and only if it carries a non-empty Origin header
different from http://localhost:port; a POST with no, empty, or matching
Origin header is never rejected by this check. -/
theorem c9_amended_origin_check (port : Nat) (req : HttpRequest)
    (hm : req.method = "POST") :
    handleFetch port req = (FetchResult.response 403 "Invalid origin", none)
      ↔ ∃ o, req.origin = some o ∧ o ≠ "" ∧ o ≠ expectedOrigin port := by
  obtain ⟨m, p, o, b⟩ := req
  simp only at hm
  subst hm
  constructor
  · intro heq
    cases o with
    | none => exact absurd heq (fetch_non_reject port p none b rfl)
    | some s =>
        by_cases h1 : s = ""
        · subst h1
          exact absurd heq (fetch_non_reject port p (some "") b rfl)
        · by_cases h2 : s = expectedOrigin port
          · refine absurd heq (fetch_non_reject port p (some s) b ?_)
            simp [originRejects, h2]
          · exact ⟨s, rfl, h1, h2⟩
  · rintro ⟨s, hs, h1, h2⟩
    simp only at hs
    subst hs
    apply fetch_reject
    simp [originRejects, h1, h2]

/-- Witness for the amended claim C9 at a hostile concrete origin. -/
theorem c9_amended_origin_witness :
    (HttpRequest.mk "POST" "/x" (some "http://evil.test") none).method = "POST"
    ∧ (handleFetch 7 ⟨"POST", "/x", some "http://evil.test", none⟩
          = (FetchResult.response 403 "Invalid origin", none)
        ↔ ∃ o, (HttpRequest.mk "POST" "/x" (some "http://evil.test") none).origin = some o
            ∧ o ≠ "" ∧ o ≠ expectedOrigin 7) :=
  ⟨rfl, c9_amended_origin_check 7 ⟨"POST", "/x", some "http://evil.test", none⟩ rfl⟩

/-- Claim C9, counterexample: a POST carrying an empty Origin header value,
which differs from the expected origin, is not rejected; the empty string is
falsy in JS, so the check lets it through, against the claimed equivalence. -/
theorem c9_empty_origin_not_rejected :
    "" ≠ expectedOrigin 40000
    ∧ (handleFetch 40000 ⟨"POST", "/api/cancel", some "", none⟩).1
        ≠ FetchResult.response 403 "Invalid origin"
    ∧ (handleFetch 40000 ⟨"POST", "/api/cancel", some "", none⟩).1
        = FetchResult.response 200 "success" := by
  refine ⟨?_, ?_, ?_⟩
  · decide
  · decide
  · rfl

/-- Claim C8: the prefix check of the static file handler is a plain string
comparison against the resolved dist directory, so a request whose decoded
path climbs out of dist and into a sibling directory whose absolute path
extends the dist path as a string (here /app/dist-backup next to /app/dist)
passes the check and is served although its resolved path escapes the dist
directory; the claimed 403 is not produced. -/
theorem c8_path_traversal_prefix_bypass :
    staticBranch "/app/dist" "/..%2fdist-backup/secret"
        = StaticOutcome.serve "/app/dist-backup/secret"
    ∧ ¬ withinDir "/app/dist" "/app/dist-backup/secret"
    ∧ staticBranch "/app/dist" "/..%2fsecret" = StaticOutcome.forbidden := by
  refine ⟨by decide, ?_, by decide⟩
  rintro (h | h)
  · exact absurd (congrArg List.length h) (by decide)
  · exact absurd h (by decide)

lemma le_maxNum {l : List Nat} {a : Nat} (h : a ∈ l) : a ≤ maxNum l := by
  induction l with
  | nil => cases h
  | cons b t ih =>
      rcases List.mem_cons.mp h with rfl | h2
      · exact Nat.le_max_left _ _
      · exact Nat.le_trans (ih h2) (Nat.le_max_right _ _)

lemma maxNum_mem {l : List Nat} (h : l ≠ []) : maxNum l ∈ l := by
  induction l with
  | nil => exact absurd rfl h
  | cons b t ih =>
      cases t with
      | nil => simp [maxNum]
      | cons c u =>
          have hm : maxNum (b :: c :: u) = max b (maxNum (c :: u)) := rfl
          rcases Nat.le_total b (maxNum (c :: u)) with hle | hle
          · rw [hm, Nat.max_eq_right hle]
            exact List.mem_cons_of_mem _ (ih (by simp))
          · rw [hm, Nat.max_eq_left hle]
            exact List.mem_cons_self _ _

/-- Claim C4: on a page with no annotations the next number is 1; on a page
with annotations it is one greater than the maximum present, which strictly
dominates every present number; and the result depends only on the page's own
annotation collection. -/
theorem c4_next_number_per_page (p : CanvasPage) :
    (p.annots = [] → nextAnnotNumber p = 1)
    ∧ (p.annots ≠ [] →
        (∀ a ∈ p.annots, a.number < nextAnnotNumber p)
        ∧ ∃ a ∈ p.annots, nextAnnotNumber p = a.number + 1)
    ∧ (∀ q : CanvasPage, p.annots = q.annots → nextAnnotNumber p = nextAnnotNumber q) := by
  refine ⟨?_, ?_, ?_⟩
  · intro h
    simp [nextAnnotNumber, h]
  · intro h
    have hnum : nextAnnotNumber p = maxNum (p.annots.map Annot.number) + 1 := by
      unfold nextAnnotNumber
      cases hp : p.annots with
      | nil => exact absurd hp h
      | cons b t => rfl
    constructor
    · intro a ha
      rw [hnum]
      exact Nat.lt_succ_of_le (le_maxNum (List.mem_map_of_mem _ ha))
    · have hne : p.annots.map Annot.number ≠ [] := by
        intro hemp
        exact h (List.map_eq_nil_iff.mp hemp)
      obtain ⟨a, ha, hval⟩ := List.mem_map.mp (maxNum_mem hne)
      exact ⟨a, ha, by rw [hnum, hval]⟩
  · intro q h
    unfold nextAnnotNumber
    rw [h]

/-- Witness for claim C4 on an empty page and a page numbered 2, 5, 3. -/
theorem c4_next_number_witness :
    nextAnnotNumber demoPageEmpty = 1
    ∧ (∀ a ∈ demoPage.annots, a.number < nextAnnotNumber demoPage)
    ∧ ∃ a ∈ demoPage.annots, nextAnnotNumber demoPage = a.number + 1 :=
  ⟨(c4_next_number_per_page demoPageEmpty).1 rfl,
   ((c4_next_number_per_page demoPage).2.1 (by simp [demoPage])).1,
   ((c4_next_number_per_page demoPage).2.1 (by simp [demoPage])).2⟩

lemma commit_commit_stack (h : PageHistory) (s1 s2 : Snapshot) :
    (commitSnap (commitSnap h s1) s2).undoStack
      = s2 :: s1 :: h.undoStack.take (HISTORY_CAP - 2) := by
  obtain ⟨k, hk⟩ : ∃ k, HISTORY_CAP = k + 2 := ⟨13, rfl⟩
  simp only [commitSnap, hk]
  rw [List.take_succ_cons, List.take_take]
  have hmin : min (k + 1) (k + 2) = k + 1 := by omega
  rw [hmin, List.take_succ_cons]
  have hsub : k + 2 - 2 = k := by omega
  rw [hsub]

/-- Claim C5: after committing S1 then S2, undo restores S1 as the live state
while parking S2 on the redo stack, redo then restores S2 and in fact the
whole history exactly as before the undo, and committing any new snapshot
after an undo leaves an empty redo stack, discarding every redo state. -/
theorem c5_undo_redo_roundtrip (h : PageHistory) (s1 s2 : Snapshot) :
    liveSnapshot (undoSnap (commitSnap (commitSnap h s1) s2)) = some s1
    ∧ redoSnap (undoSnap (commitSnap (commitSnap h s1) s2))
        = commitSnap (commitSnap h s1) s2
    ∧ liveSnapshot (redoSnap (undoSnap (commitSnap (commitSnap h s1) s2))) = some s2
    ∧ ∀ s3 : Snapshot,
        (commitSnap (undoSnap (commitSnap (commitSnap h s1) s2)) s3).redoStack = [] := by
  have key := commit_commit_stack h s1 s2
  have hredo : (commitSnap (commitSnap h s1) s2).redoStack = [] := rfl
  have hu : undoSnap (commitSnap (commitSnap h s1) s2)
      = ⟨s1 :: h.undoStack.take (HISTORY_CAP - 2), [s2]⟩ := by
    unfold undoSnap
    rw [key, hredo]
  have hr : redoSnap (⟨s1 :: h.undoStack.take (HISTORY_CAP - 2), [s2]⟩ : PageHistory)
      = ⟨s2 :: s1 :: h.undoStack.take (HISTORY_CAP - 2), []⟩ := rfl
  refine ⟨?_, ?_, ?_, ?_⟩
  · rw [hu]
    rfl
  · rw [hu, hr, ← key, ← hredo]
  · rw [hu, hr]
    rfl
  · intro s3
    rfl

/-- Claim C6: the hit tester scans the most recently created annotation first
(last of the list, topmost in z-order) and returns the first hit, so for two
pins A (created first) and B (created second), any point within both hit
radii resolves to B. -/
theorem c6_hit_topmost_pin (idA idB : String) (nA nB : Nat) (fa fb : String)
    (ca cb p : Point)
    (_hA : dist2 p ca ≤ PIN_HIT_RADIUS * PIN_HIT_RADIUS)
    (hB : dist2 p cb ≤ PIN_HIT_RADIUS * PIN_HIT_RADIUS) :
    hitTest p [mkPin idA nA ca fa, mkPin idB nB cb fb] = some (mkPin idB nB cb fb) := by
  have hhit : hitsAnnot p (mkPin idB nB cb fb) = true := by
    unfold hitsAnnot mkPin
    rw [Bool.and_eq_true]
    constructor
    · unfold boxContains padBox pinBounds BB_PADDING PIN_VISUAL_RADIUS
      rw [decide_eq_true_eq]
      unfold dist2 PIN_HIT_RADIUS at hB
      dsimp only
      refine ⟨?_, ?_, ?_, ?_⟩
      · nlinarith [sq_nonneg (p.y - cb.y), sq_nonneg (p.x - cb.x + 19)]
      · nlinarith [sq_nonneg (p.y - cb.y), sq_nonneg (p.x - cb.x - 19)]
      · nlinarith [sq_nonneg (p.x - cb.x), sq_nonneg (p.y - cb.y + 19)]
      · nlinarith [sq_nonneg (p.x - cb.x), sq_nonneg (p.y - cb.y - 19)]
    · rw [decide_eq_true_eq]
      exact hB
  unfold hitTest
  have hrev : ([mkPin idA nA ca fa, mkPin idB nB cb fb]).reverse
      = [mkPin idB nB cb fb, mkPin idA nA ca fa] := by
    simp
  rw [hrev]
  exact List.find?_cons_of_pos _ hhit

/-- Witness for claim C6: pins at the origin and at x 10, point between them
within both hit radii, resolved to the second pin. -/
theorem c6_hit_topmost_witness :
    dist2 ⟨5, 0⟩ ⟨0, 0⟩ ≤ PIN_HIT_RADIUS * PIN_HIT_RADIUS
    ∧ dist2 ⟨5, 0⟩ ⟨10, 0⟩ ≤ PIN_HIT_RADIUS * PIN_HIT_RADIUS
    ∧ hitTest ⟨5, 0⟩ [mkPin "A" 1 ⟨0, 0⟩ "", mkPin "B" 2 ⟨10, 0⟩ ""]
        = some (mkPin "B" 2 ⟨10, 0⟩ "") := by
  have h1 : dist2 ⟨5, 0⟩ ⟨0, 0⟩ ≤ PIN_HIT_RADIUS * PIN_HIT_RADIUS := by
    norm_num [dist2, PIN_HIT_RADIUS]
  have h2 : dist2 ⟨5, 0⟩ ⟨10, 0⟩ ≤ PIN_HIT_RADIUS * PIN_HIT_RADIUS := by
    norm_num [dist2, PIN_HIT_RADIUS]
  exact ⟨h1, h2, c6_hit_topmost_pin "A" "B" 1 2 "" "" ⟨0, 0⟩ ⟨10, 0⟩ ⟨5, 0⟩ h1 h2⟩

lemma take_append_take {α : Type} (k : Nat) (A B : List α) :
    (A ++ B.take k).take k = (A ++ B).take k := by
  rw [List.take_append_eq_append_take, List.take_append_eq_append_take, List.take_take]
  have hmin : min (k - A.length) k = k - A.length := Nat.min_eq_left (Nat.sub_le _ _)
  rw [hmin]

lemma commitAll_stack (l : List Snapshot) (h : PageHistory) (hne : l ≠ []) :
    (commitAll h l).undoStack = (l.reverse ++ h.undoStack).take HISTORY_CAP := by
  induction l generalizing h with
  | nil => exact absurd rfl hne
  | cons s rest ih =>
      rcases eq_or_ne rest [] with hr | hr
      · subst hr
        simp [commitAll, commitSnap]
      · rw [commitAll, ih (commitSnap h s) hr]
        rw [show (commitSnap h s).undoStack = (s :: h.undoStack).take HISTORY_CAP from rfl]
        rw [take_append_take]
        simp [List.append_assoc]

lemma undoSnap_stack_subset (h : PageHistory) : (undoSnap h).undoStack ⊆ h.undoStack := by
  unfold undoSnap
  cases hu : h.undoStack with
  | nil => simp [hu]
  | cons a t =>
      cases t with
      | nil => simp [hu]
      | cons b u =>
          intro x hx
          exact List.mem_cons_of_mem _ hx

lemma undoIter_stack_subset (h : PageHistory) (n : Nat) :
    (undoIter h n).undoStack ⊆ h.undoStack := by
  induction n generalizing h with
  | zero => exact fun x hx => hx
  | succ n ih =>
      rw [undoIter]
      exact List.Subset.trans (ih (undoSnap h)) (undoSnap_stack_subset h)

/-- Claim C7: committing at least as many snapshots as the cap retains exactly
the cap most recent ones (newest first, the oldest discarded), and any state
reachable by repeated undo lives on that retained stack, so the discarded
oldest snapshots are unrecoverable. -/
theorem c7_history_cap (h : PageHistory) (l : List Snapshot)
    (hlen : HISTORY_CAP ≤ l.length) :
    (commitAll h l).undoStack = l.reverse.take HISTORY_CAP
    ∧ ∀ n s, liveSnapshot (undoIter (commitAll h l) n) = some s
        → s ∈ l.reverse.take HISTORY_CAP := by
  have hne : l ≠ [] := by
    intro he
    rw [he] at hlen
    simp [HISTORY_CAP] at hlen
  have hstack := commitAll_stack l h hne
  have heq : (l.reverse ++ h.undoStack).take HISTORY_CAP = l.reverse.take HISTORY_CAP := by
    rw [List.take_append_of_le_length]
    simpa using hlen
  constructor
  · rw [hstack, heq]
  · intro n s hs
    have hmem : s ∈ (undoIter (commitAll h l) n).undoStack := by
      unfold liveSnapshot at hs
      cases hu : (undoIter (commitAll h l) n).undoStack with
      | nil => rw [hu] at hs; exact absurd hs (by simp)
      | cons a t =>
          rw [hu] at hs
          simp only [List.head?] at hs
          injection hs with hs2
          rw [← hs2]
          exact List.mem_cons_self _ _
    have hsub := undoIter_stack_subset (commitAll h l) n hmem
    rw [hstack, heq] at hsub
    exact hsub

/-- Witness for claim C7: sixteen distinct snapshots against the cap of 15. -/
theorem c7_history_cap_witness :
    HISTORY_CAP ≤ demoSnaps.length
    ∧ ((commitAll ⟨[], []⟩ demoSnaps).undoStack = demoSnaps.reverse.take HISTORY_CAP
      ∧ ∀ n s, liveSnapshot (undoIter (commitAll ⟨[], []⟩ demoSnaps) n) = some s
          → s ∈ demoSnaps.reverse.take HISTORY_CAP) :=
  ⟨by decide, c7_history_cap ⟨[], []⟩ demoSnaps (by decide)⟩
